import Mathlib

set_option maxRecDepth 8000

namespace BBLogger

/-! Shallow embedding of brainboost_data_source_logger_package
    (BBLogger.py and BBLogEntry.py).  The filesystem is an association
    list from paths to file contents, pandas DataFrames are modelled by
    their lists of rows (each row a list of string field values), and
    datetimes are records of naturals at second precision. -/

/-- Line feed character. -/
def lfC : Char := Char.ofNat 10

/-- Carriage return character. -/
def crC : Char := Char.ofNat 13

/-- Single quote, the csv quotechar used by BBLogger file I/O. -/
def sqC : Char := Char.ofNat 39

/-- Double quote, the csv quotechar used by BBLogEntry terminal rendering. -/
def dqC : Char := Char.ofNat 34

/-- Underscore. -/
def undC : Char := Char.ofNat 95

/-- Row terminator written by csv.writer. -/
def crlf : String := String.mk [crC, lfC]

/-- Underscore as a string. -/
def undStr : String := String.mk [undC]

/-- Decimal digit characters of a natural number, accumulator form. -/
def decReprCore : Nat → Nat → List Char → List Char
  | 0, _, acc => acc
  | fuel + 1, n, acc =>
    if n < 10 then Char.ofNat (48 + n) :: acc
    else decReprCore fuel (n / 10) (Char.ofNat (48 + n % 10) :: acc)

/-- Unpadded decimal rendering of a natural number.  This embeds both
    CPython's str(int) and glibc strftime's %Y field, which prints the
    year without zero padding (CPython issue bpo-13305): year 5 prints
    as "5", year 2024 as "2024". -/
def decRepr (n : Nat) : String := String.mk (decReprCore (n + 1) n [])

/-- Two-digit zero padded strftime field (%m %d %H %M %S). -/
def pad2 (n : Nat) : String := if n < 10 then "0" ++ decRepr n else decRepr n

/-- A Python datetime value at second precision.  BBLogger never uses
    sub-second fields of a timestamp, and no settled claim depends on
    microseconds. -/
structure DateTime where
  year : Nat
  month : Nat
  day : Nat
  hour : Nat
  minute : Nat
  second : Nat
deriving DecidableEq

/-- A Python date value. -/
structure Date where
  year : Nat
  month : Nat
  day : Nat
deriving DecidableEq

/-- The date part of a datetime (datetime.date()). -/
def DateTime.dateOf (dt : DateTime) : Date := ⟨dt.year, dt.month, dt.day⟩

/-- Gregorian leap year rule, as used by Python's calendar arithmetic. -/
def leapYear (y : Nat) : Bool := y % 4 = 0 && (y % 100 ≠ 0 || y % 400 = 0)

/-- Days in a month of the Gregorian calendar. -/
def daysInMonth (y m : Nat) : Nat :=
  if m = 2 then (if leapYear y then 29 else 28)
  else if m = 4 || m = 6 || m = 9 || m = 11 then 30
  else 31

/-- strftime('%Y%m%d%H%M%S') on a datetime: the timestamp string the
    logger stores in each entry (BBLogger.log). -/
def ts14 (dt : DateTime) : String :=
  decRepr dt.year ++ pad2 dt.month ++ pad2 dt.day ++ pad2 dt.hour ++
    pad2 dt.minute ++ pad2 dt.second

/-- strftime('%Y_%m_%d') on a datetime: the date token of the partition
    file name (BBLogger._write_to_log_file and BBLogger.log). -/
def dateU (dt : DateTime) : String :=
  decRepr dt.year ++ undStr ++ pad2 dt.month ++ undStr ++ pad2 dt.day

/-- strftime('%Y%m%d') on a date: the day key used by
    get_logs_between_timestampt_and_timestampt to enumerate partitions. -/
def date8Str (d : Date) : String := decRepr d.year ++ pad2 d.month ++ pad2 d.day

/-- date + timedelta(days=1). -/
def nextDay (d : Date) : Date :=
  if d.day < daysInMonth d.year d.month then ⟨d.year, d.month, d.day + 1⟩
  else if d.month < 12 then ⟨d.year, d.month + 1, 1⟩
  else ⟨d.year + 1, 1, 1⟩

/-- Strict lexicographic comparison of equally shaped Nat lists,
    embedding Python's tuple comparison of date/datetime components. -/
def natLexLtB : List Nat → List Nat → Bool
  | [], [] => false
  | [], _ :: _ => true
  | _ :: _, [] => false
  | a :: as, b :: bs => if a < b then true else if b < a then false else natLexLtB as bs

/-- Comparison key of a datetime. -/
def dtKey (x : DateTime) : List Nat := [x.year, x.month, x.day, x.hour, x.minute, x.second]

/-- Comparison key of a date. -/
def dateKey (d : Date) : List Nat := [d.year, d.month, d.day]

/-- Python datetime strict less-than. -/
def dtLtB (a b : DateTime) : Bool := natLexLtB (dtKey a) (dtKey b)

/-- Python datetime less-or-equal. -/
def dtLeB (a b : DateTime) : Bool := !(natLexLtB (dtKey b) (dtKey a))

/-- Python date less-or-equal. -/
def dateLeB (a b : Date) : Bool := !(natLexLtB (dateKey b) (dateKey a))

/-- The while loop of get_logs_between_timestampt_and_timestampt that
    collects every calendar day from d1 to d2 inclusive, with enough
    fuel for the number of iterations. -/
def dateRangeAux : Nat → Date → Date → List Date
  | 0, _, _ => []
  | fuel + 1, cur, stop =>
    if dateLeB cur stop then cur :: dateRangeAux fuel (nextDay cur) stop else []

/-- Every calendar day from d1 to d2 inclusive (empty when d1 > d2). -/
def dateRange (d1 d2 : Date) : List Date := dateRangeAux (366 * (d2.year + 2)) d1 d2

/-- Digit test for the byte-for-byte strptime patterns below. -/
def isDig (c : Char) : Bool := 48 ≤ c.toNat && c.toNat ≤ 57

/-- Numeric value of a digit character. -/
def digitVal (c : Char) : Nat := c.toNat - 48

/-- Character equality test. -/
def isCh (x : Char) (c : Char) : Bool := c = x

/-- Character range test. -/
def betweenCh (lo hi : Char) (c : Char) : Bool := lo.toNat ≤ c.toNat && c.toNat ≤ hi.toNat

/-- A two-character alternative of a strptime field pattern. -/
def alt2 (p1 p2 : Char → Bool) (v : Char → Char → Nat) :
    List Char → Option (Nat × List Char) := fun s =>
  match s with
  | a :: b :: rest => if p1 a && p2 b then some (v a b, rest) else none
  | _ => none

/-- A one-character alternative of a strptime field pattern. -/
def alt1 (p : Char → Bool) (v : Char → Nat) :
    List Char → Option (Nat × List Char) := fun s =>
  match s with
  | a :: rest => if p a then some (v a, rest) else none
  | _ => none

/-- CPython _strptime %Y pattern: exactly four digits. -/
def matchY : List Char → Option (Nat × List Char)
  | a :: b :: c :: d :: rest =>
    if isDig a && isDig b && isDig c && isDig d then
      some (digitVal a * 1000 + digitVal b * 100 + digitVal c * 10 + digitVal d, rest)
    else none
  | _ => none

/-- CPython _strptime %m alternatives, in regex order. -/
def altsM : List (List Char → Option (Nat × List Char)) :=
  [alt2 (isCh (Char.ofNat 49)) (betweenCh (Char.ofNat 48) (Char.ofNat 50)) (fun _ b => 10 + digitVal b),
   alt2 (isCh (Char.ofNat 48)) (betweenCh (Char.ofNat 49) (Char.ofNat 57)) (fun _ b => digitVal b),
   alt1 (betweenCh (Char.ofNat 49) (Char.ofNat 57)) digitVal]

/-- CPython _strptime %d alternatives, in regex order. -/
def altsD : List (List Char → Option (Nat × List Char)) :=
  [alt2 (isCh (Char.ofNat 51)) (betweenCh (Char.ofNat 48) (Char.ofNat 49)) (fun _ b => 30 + digitVal b),
   alt2 (betweenCh (Char.ofNat 49) (Char.ofNat 50)) isDig (fun a b => digitVal a * 10 + digitVal b),
   alt2 (isCh (Char.ofNat 48)) (betweenCh (Char.ofNat 49) (Char.ofNat 57)) (fun _ b => digitVal b),
   alt1 (betweenCh (Char.ofNat 49) (Char.ofNat 57)) digitVal]

/-- CPython _strptime %H alternatives, in regex order. -/
def altsH : List (List Char → Option (Nat × List Char)) :=
  [alt2 (isCh (Char.ofNat 50)) (betweenCh (Char.ofNat 48) (Char.ofNat 51)) (fun _ b => 20 + digitVal b),
   alt2 (betweenCh (Char.ofNat 48) (Char.ofNat 49)) isDig (fun a b => digitVal a * 10 + digitVal b),
   alt1 isDig digitVal]

/-- CPython _strptime %M alternatives, in regex order. -/
def altsMin : List (List Char → Option (Nat × List Char)) :=
  [alt2 (betweenCh (Char.ofNat 48) (Char.ofNat 53)) isDig (fun a b => digitVal a * 10 + digitVal b),
   alt1 isDig digitVal]

/-- CPython _strptime %S alternatives, in regex order (leap seconds 60
    and 61 are accepted by the pattern and rejected by the datetime
    constructor). -/
def altsS : List (List Char → Option (Nat × List Char)) :=
  [alt2 (isCh (Char.ofNat 54)) (betweenCh (Char.ofNat 48) (Char.ofNat 49)) (fun _ b => 60 + digitVal b),
   alt2 (betweenCh (Char.ofNat 48) (Char.ofNat 53)) isDig (fun a b => digitVal a * 10 + digitVal b),
   alt1 isDig digitVal]

/-- Ordered alternation with backtracking, mirroring the regex engine:
    each alternative is tried in order, and when the continuation fails
    the next alternative is tried. -/
def runAlts (alts : List (List Char → Option (Nat × List Char))) (s : List Char)
    (k : Nat → List Char → Option α) : Option α :=
  match alts with
  | [] => none
  | a :: rest =>
    match a s with
    | some (v, s2) =>
      match k v s2 with
      | some r => some r
      | none => runAlts rest s k
    | none => runAlts rest s k

/-- First match of the compiled '%Y%m%d%H%M%S' regex against a prefix of
    the input, in the regex engine's depth-first alternative order;
    returns the six field values and the unconsumed remainder. -/
def matchTS (s : List Char) : Option (Nat × Nat × Nat × Nat × Nat × Nat × List Char) :=
  match matchY s with
  | none => none
  | some (y, s1) =>
    runAlts altsM s1 (fun mo s2 =>
      runAlts altsD s2 (fun d s3 =>
        runAlts altsH s3 (fun h s4 =>
          runAlts altsMin s4 (fun mi s5 =>
            runAlts altsS s5 (fun sec s6 =>
              some (y, mo, d, h, mi, sec, s6))))))

/-- datetime.strptime(s, '%Y%m%d%H%M%S') as used by BBLogger: the regex
    must match with nothing left over ("unconverted data remains"), and
    the datetime constructor validates the calendar fields. -/
def strptime14 (s : String) : Option DateTime :=
  match matchTS s.data with
  | none => none
  | some (y, mo, d, h, mi, sec, rest) =>
    if rest = [] && 1 ≤ y && d ≤ daysInMonth y mo && sec ≤ 59 then
      some ⟨y, mo, d, h, mi, sec⟩
    else none

/-- Python universal-newline translation applied when a file is opened
    for reading in text mode without newline='': CRLF and lone CR both
    become LF. -/
def univNL : List Char → List Char
  | [] => []
  | [c] => if c = crC then [lfC] else [c]
  | c1 :: c2 :: rest =>
    if c1 = crC then
      if c2 = lfC then lfC :: univNL rest
      else lfC :: univNL (c2 :: rest)
    else c1 :: univNL (c2 :: rest)

/-- State machine of Python's csv reader (states: 0 start of field, 1 in
    unquoted field, 2 in quoted field, 3 just after a quote character in
    a quoted field).  fld holds the current field's characters in order,
    rec the finished fields of the current record reversed, recs the
    finished records reversed.  A quote character opens a quoted section
    only at field start; inside a quoted section a doubled quote is a
    literal quote; records end at a line feed outside quotes; a blank
    line yields an empty record (as csv.reader does). -/
def csvAux (d q : Char) : List Char → Nat → List Char → List String →
    List (List String) → List (List String)
  | [], mode, fld, rec, recs =>
    if mode = 0 then
      if rec = [] then recs.reverse
      else ((("" :: rec).reverse) :: recs).reverse
    else (((String.mk fld :: rec).reverse) :: recs).reverse
  | c :: rest, mode, fld, rec, recs =>
    if mode = 0 then
      if c = q then csvAux d q rest 2 [] rec recs
      else if c = d then csvAux d q rest 0 [] ("" :: rec) recs
      else if c = lfC then
        csvAux d q rest 0 [] []
          ((if rec = [] then ([] : List String) else ("" :: rec).reverse) :: recs)
      else csvAux d q rest 1 [c] rec recs
    else if mode = 1 then
      if c = d then csvAux d q rest 0 [] (String.mk fld :: rec) recs
      else if c = lfC then
        csvAux d q rest 0 [] [] (((String.mk fld :: rec).reverse) :: recs)
      else csvAux d q rest 1 (fld ++ [c]) rec recs
    else if mode = 2 then
      if c = q then csvAux d q rest 3 fld rec recs
      else csvAux d q rest 2 (fld ++ [c]) rec recs
    else
      if c = q then csvAux d q rest 2 (fld ++ [q]) rec recs
      else if c = d then csvAux d q rest 0 [] (String.mk fld :: rec) recs
      else if c = lfC then
        csvAux d q rest 0 [] [] (((String.mk fld :: rec).reverse) :: recs)
      else csvAux d q rest 1 (fld ++ [c]) rec recs

/-- Parse a whole file's text with csv semantics (after universal
    newline translation, as the query paths open files in text mode). -/
def csvParse (d q : Char) (s : String) : List (List String) :=
  csvAux d q (univNL s.data) 0 [] [] []

/-- Field needs quoting under QUOTE_MINIMAL: it contains the delimiter,
    the quote character, or a line break. -/
def needsQuote (d q : Char) (f : String) : Bool :=
  f.data.any (fun c => c = d || c = q || c = lfC || c = crC)

/-- Quote-escaping by doubling (csv doublequote=True). -/
def escQ (q : Char) (f : String) : String :=
  String.mk (f.data.flatMap (fun c => if c = q then [q, q] else [c]))

/-- One-character string. -/
def strOf (c : Char) : String := String.mk [c]

/-- csv field rendering under QUOTE_MINIMAL. -/
def encMin (d q : Char) (f : String) : String :=
  if needsQuote d q f then strOf q ++ escQ q f ++ strOf q else f

/-- csv field rendering under QUOTE_ALL. -/
def encAll (q : Char) (f : String) : String := strOf q ++ escQ q f ++ strOf q

/-- Join of the rendered fields of one record with the delimiter. -/
def joinFields (sep : String) : List String → String
  | [] => ""
  | [f] => f
  | f :: g :: rest => f ++ sep ++ joinFields sep (g :: rest)

/-- csv.writer(...).writerow under QUOTE_MINIMAL with terminator CRLF
    (a single empty field is quoted, as csv.writer does, to keep it
    distinct from an empty record). -/
def rowMin (d q : Char) (fields : List String) : String :=
  if fields = [""] then strOf q ++ strOf q ++ crlf
  else joinFields (strOf d) (fields.map (encMin d q)) ++ crlf

/-- csv.writer(...).writerow under QUOTE_ALL with terminator CRLF. -/
def rowAll (d q : Char) (fields : List String) : String :=
  joinFields (strOf d) (fields.map (encAll q)) ++ crlf

/-- ASCII subset of Python str.strip(). -/
def isPyWS (c : Char) : Bool :=
  c = Char.ofNat 32 || c = Char.ofNat 9 || c = lfC || c = crC ||
    c = Char.ofNat 11 || c = Char.ofNat 12

/-- Python str.strip() on both ends, character-list core. -/
def pyStripL (l : List Char) : List Char :=
  ((l.dropWhile isPyWS).reverse.dropWhile isPyWS).reverse

/-- Python str.strip() on both ends. -/
def pyStrip (s : String) : String := String.mk (pyStripL s.data)

/-- File store: association list from file paths to file contents. -/
abbrev FS := List (String × String)

/-- os.path.exists / reading an existing file. -/
def fsLookup : FS → String → Option String
  | [], _ => none
  | (p0, c0) :: rest, p => if p0 = p then some c0 else fsLookup rest p

/-- Opening a file in append mode and writing s: creates the file when
    absent, appends to its content otherwise. -/
def fsAppend : FS → String → String → FS
  | [], p, s => [(p, s)]
  | (p0, c0) :: rest, p, s =>
    if p0 = p then (p0, c0 ++ s) :: rest else (p0, c0) :: fsAppend rest p s

/-- The configuration keys BBLogger reads through BBConfig.get,
    collected in one record (the configuration loader is an external
    collaborator). -/
structure Config where
  logPath : String
  pref : String
  delim : Char
  columns : List String
  pageSize : Nat
  debugMode : Bool
  enableFiles : Bool
  enableTerminal : Bool
  enableDatabase : Bool
  notifTelegram : String
  notifSlack : String
  notifUrl : String

/-- os.path.join(log_path, f"(prefix)_log_(date).log"). -/
def logFilePathFor (cfg : Config) (d : String) : String :=
  cfg.logPath ++ "/" ++ cfg.pref ++ "_log_" ++ d ++ ".log"

/-- BBLogEntry: one classified event. -/
structure LogEntry where
  timestamp : String
  logType : String
  process : String
  codeLocation : String
  message : String
  processingTime : String
deriving DecidableEq

/-- The six stored fields in the fixed order used by the file writer,
    the database writer and the terminal rendering. -/
def entryFields (e : LogEntry) : List String :=
  [e.timestamp, e.logType, e.process, e.codeLocation, e.message, e.processingTime]

/-- BBLogger._write_to_log_file's row rendering: csv.writer with the
    configured delimiter, quotechar single quote, QUOTE_MINIMAL. -/
def fileRender (cfg : Config) (e : LogEntry) : String :=
  rowMin cfg.delim sqC (entryFields e)

/-- BBLogEntry.__str__: csv.writer with the configured delimiter,
    quotechar double quote, QUOTE_ALL, then str.strip(). -/
def terminalRender (d : Char) (e : LogEntry) : String :=
  pyStrip (rowAll d dqC (entryFields e))

/-- BBLogger._write_to_log_file (successful write): the partition path
    is built from strftime('%Y_%m_%d') of the captured _last_time; when
    the file does not yet exist the configured column header row is
    written first; then the entry row is appended under minimal
    quoting.  The IOError handler of the source is modelled at the call
    site (logRun) by leaving the store unchanged on an injected write
    failure. -/
def writeToLogFile (cfg : Config) (lastTime : DateTime) (e : LogEntry) (fs : FS) : FS :=
  let path := logFilePathFor cfg (dateU lastTime)
  let fileExists := (fsLookup fs path).isSome
  let payload :=
    (if fileExists then "" else rowMin cfg.delim sqC cfg.columns) ++ fileRender cfg e
  fsAppend fs path payload

/-- The csv parse of a partition file as the query paths see it. -/
def parsedLogs (cfg : Config) (content : String) : List (List String) :=
  csvParse cfg.delim sqC content

/-- Header stripping shared by get_page, get_logs_in_range and
    get_total_amount_of_pages: drop the first record when it equals the
    configured column list. -/
def dataRowsOf (cfg : Config) (content : String) : List (List String) :=
  let logs := parsedLogs cfg content
  if logs.head? = some cfg.columns then logs.tail else logs

/-- Ceiling division (total_logs + page_size - 1) // page_size. -/
def totalPagesOf (cfg : Config) (content : String) : Nat :=
  ((dataRowsOf cfg content).length + cfg.pageSize - 1) / cfg.pageSize

/-- Python exceptions surfaced by the query paths. -/
inductive PyErr
  | fileNotFound
  | valueError
  | noLogs
deriving DecidableEq

/-- BBLogger.get_page: reads today's partition, strips the header row,
    validates the 1-based page number against the ceiling page count and
    returns the page's slice of data rows. -/
def getPage (cfg : Config) (fs : FS) (todayU : String) (pageNum : Int) :
    Except PyErr (List (List String)) :=
  match fsLookup fs (logFilePathFor cfg todayU) with
  | none => .error .fileNotFound
  | some content =>
    let logs := dataRowsOf cfg content
    let totalPages := totalPagesOf cfg content
    if pageNum < 1 ∨ (totalPages : Int) < pageNum then .error .valueError
    else .ok ((logs.drop ((pageNum - 1).toNat * cfg.pageSize)).take cfg.pageSize)

/-- BBLogger.get_logs_in_range: the date argument is used verbatim in
    the file name (the docstring requires the YYYY_MM_DD form); validates
    the 1-based inclusive line range against the data rows and returns
    logs[start_line - 1 : end_line]. -/
def getLogsInRange (cfg : Config) (fs : FS) (date : String) (startLine endLine : Int) :
    Except PyErr (List (List String)) :=
  match fsLookup fs (logFilePathFor cfg date) with
  | none => .error .fileNotFound
  | some content =>
    let logs := dataRowsOf cfg content
    if startLine < 1 ∨ (logs.length : Int) < endLine ∨ endLine < startLine then
      .error .valueError
    else .ok ((logs.drop (startLine - 1).toNat).take (endLine - (startLine - 1)).toNat)

/-- BBLogger.get_total_amount_of_pages: with no date argument the date
    defaults to today and an absent partition raises the no-logs
    condition; with an explicit date an absent partition yields 0; an
    existing partition yields the ceiling page count of its data rows. -/
def getTotalAmountOfPages (cfg : Config) (fs : FS) (todayU : String)
    (dateArg : Option String) : Except PyErr Nat :=
  let isToday := dateArg.isNone
  let d := dateArg.getD todayU
  match fsLookup fs (logFilePathFor cfg d) with
  | none => if isToday then .error .noLogs else .ok 0
  | some content => .ok (totalPagesOf cfg content)

/-- ','.join(columns): the hard-coded comma join that
    read_logs_from_date compares the file's first line against. -/
def commaJoin (cols : List String) : String := joinFields "," cols

/-- BBLogger.read_logs_from_date: validates the strict 8-digit date,
    rewrites it to YYYY_MM_DD for the file name, detects a header by
    comparing the stripped first line against the COMMA-joined column
    list (the source hard-codes ',' here although the file was written
    with the configured delimiter), then reads the file with pandas:
    with a header the first record is consumed as column names,
    otherwise every record is a data row; pandas skips blank lines. -/
def readLogsFromDate (cfg : Config) (fs : FS) (date : String) :
    Except PyErr (List (List String)) :=
  if !(date.length = 8 && date.data.all isDig) then .error .valueError
  else
    let fdate := String.mk (date.data.take 4) ++ undStr ++
      String.mk ((date.data.drop 4).take 2) ++ undStr ++ String.mk (date.data.drop 6)
    match fsLookup fs (logFilePathFor cfg fdate) with
    | none => .error .fileNotFound
    | some content =>
      let firstLine := pyStrip (String.mk ((univNL content.data).takeWhile (fun c => c ≠ lfC)))
      let hasHeader := firstLine = commaJoin cfg.columns
      let recs := (csvParse cfg.delim sqC content).filter (fun r => r ≠ [])
      .ok (if hasHeader then recs.tail else recs)

/-- Name of the timestamp column looked up by the range scan. -/
def tsColumnName : String := "timestamp"

/-- BBLogger.get_logs_between_timestampt_and_timestampt: both bounds
    must strptime-parse in '%Y%m%d%H%M%S' and be ordered; every day of
    the closed date span is enumerated; days whose read fails are
    skipped; if no read succeeded the result is empty; the surviving
    rows are concatenated in day order, the timestamp column is parsed
    (a failure on any row, caught by the source's handler, yields an
    empty result, as does a missing timestamp column), and the rows are
    filtered to the closed interval. -/
def getLogsBetweenTimestamps (cfg : Config) (fs : FS) (t1 t2 : String) :
    Except PyErr (List (List String)) :=
  match strptime14 t1, strptime14 t2 with
  | some dt1, some dt2 =>
    if dtLtB dt2 dt1 then .error .valueError
    else
      let days := dateRange dt1.dateOf dt2.dateOf
      let dfs := days.filterMap (fun d2 => (readLogsFromDate cfg fs (date8Str d2)).toOption)
      if dfs = [] then .ok []
      else
        let allRows := dfs.flatten
        match cfg.columns.indexOf? tsColumnName with
        | none => .ok []
        | some i =>
          match allRows.mapM (fun r => (strptime14 (r.getD i "")).map (fun tv => (r, tv))) with
          | none => .ok []
          | some rs =>
            .ok ((rs.filter (fun pr => dtLeB dt1 pr.2 && dtLeB pr.2 dt2)).map (fun pr => pr.1))
  | _, _ => .error .valueError

/-- Error keywords of BBLogger.log.is_error_message. -/
def errorIndicators : List String := ["error", "exception", "failed", "missing"]

/-- Warning keywords of BBLogger.log.is_warning_message. -/
def warningIndicators : List String := ["warning", "aware", "careful"]

/-- ASCII lower-casing of one character. -/
def lowerChar (c : Char) : Char :=
  if 65 ≤ c.toNat && c.toNat ≤ 90 then Char.ofNat (c.toNat + 32) else c

/-- Python str.lower, ASCII part.  Python's lower additionally maps some
    non-ASCII letters, but of those only U+212A lands in ASCII (at 'k'),
    a letter no classifier keyword contains, so on the keyword alphabet
    the two functions find the same occurrences. -/
def pyLower (s : String) : String := String.mk (s.data.map lowerChar)

/-- Boolean list-prefix test. -/
def prefB : List Char → List Char → Bool
  | [], _ => true
  | _ :: _, [] => false
  | a :: as, b :: bs => a = b && prefB as bs

/-- Boolean contiguous-sublist test. -/
def infixB (needle : List Char) : List Char → Bool
  | [] => prefB needle []
  | c :: rest => prefB needle (c :: rest) || infixB needle rest

/-- Python's substring test `w in msg.lower()`: w occurs contiguously in
    the lowered message. -/
def containsWordB (msg w : String) : Bool := infixB w.data (pyLower msg).data

/-- is_error_message. -/
def isErrorMessage (msg : String) : Bool :=
  errorIndicators.any (fun w => containsWordB msg w)

/-- is_warning_message. -/
def isWarningMessage (msg : String) : Bool :=
  warningIndicators.any (fun w => containsWordB msg w)

/-- log_type = 'error' if ... else 'warning' if ... else 'message'. -/
def classifyMessage (msg : String) : String :=
  if isErrorMessage msg then "error"
  else if isWarningMessage msg then "warning"
  else "message"

/-- Days since 0000-03-01 in the proleptic Gregorian calendar (civil
    calendar algorithm), used to embed timedelta arithmetic. -/
def daysFromCivil (y m d : Nat) : Nat :=
  let y2 := if m ≤ 2 then y - 1 else y
  let era := y2 / 400
  let yoe := y2 - era * 400
  let doy := (153 * (if 2 < m then m - 3 else m + 9) + 2) / 5 + (d - 1)
  let doe := yoe * 365 + yoe / 4 - yoe / 100 + doy
  era * 146097 + doe

/-- Seconds since the epoch of daysFromCivil. -/
def dtTotalSeconds (dt : DateTime) : Nat :=
  daysFromCivil dt.year dt.month dt.day * 86400 + dt.hour * 3600 +
    dt.minute * 60 + dt.second

/-- str(_delta.total_seconds()) if _delta else '0' (the clock is
    modelled at second precision, so the float prints as n.0). -/
def elapsedStr (last : Option DateTime) (now : DateTime) : String :=
  match last with
  | none => "0"
  | some l =>
    if dtTotalSeconds l ≤ dtTotalSeconds now then
      decRepr (dtTotalSeconds now - dtTotalSeconds l) ++ ".0"
    else "-" ++ decRepr (dtTotalSeconds l - dtTotalSeconds now) ++ ".0"

/-- The notification flags of one BBLogger.log call. -/
structure NotifFlags where
  telegram : Bool
  slack : Bool
  urlNotification : Bool

/-- Injected environment failures: a file-write IOError and per
    destination transport failures (requests.RequestException).  Both
    are caught by the source (the except clauses in _write_to_log_file
    and send_notification), so they may change what is stored but never
    what is raised. -/
structure Inj where
  fileWriteFails : Bool
  telegramFails : Bool
  slackFails : Bool
  urlFails : Bool

/-- No injected failure. -/
def injNone : Inj := ⟨false, false, false, false⟩

/-- Everything one BBLogger.log call does that is observable: the file
    store afterwards, the updated process-local _last_time, the built
    entry, the entries appended to the partition file, the partition
    path chosen for the write, terminal output, database inserts, the
    notification destinations attempted in order, and the call's result
    (an uncaught exception would appear as .error). -/
structure LogOutcome where
  fs : FS
  lastTime : Option DateTime
  builtEntry : Option LogEntry
  written : List LogEntry
  filePath : Option String
  terminalOut : List String
  dbWritten : List LogEntry
  notifAttempts : List String
  result : Except PyErr Unit

/-- The BBLogEntry constructed by BBLogger.log: timestamp from
    strftime('%Y%m%d%H%M%S') of the captured now, severity from the
    keyword classifier, elapsed seconds from the previous emission
    time.  The process name and the caller location are runtime
    introspection (sys.argv / traceback) and enter as parameters. -/
def mkEntry (last : Option DateTime) (now : DateTime)
    (procName codeLoc msg : String) : LogEntry :=
  ⟨ts14 now, classifyMessage msg, procName, codeLoc, msg, elapsedStr last now⟩

/-- The destinations send_notification is called for, in source order:
    telegram, then slack, then the generic url, each gated only by its
    own flag. -/
def notifTargets (cfg : Config) (flags : NotifFlags) : List String :=
  (if flags.telegram then [cfg.notifTelegram] else []) ++
  (if flags.slack then [cfg.notifSlack] else []) ++
  (if flags.urlNotification then [cfg.notifUrl] else [])

/-- BBLogger.log.  Outside debug mode nothing happens.  In debug mode
    the entry is built, written to the partition file when file storage
    is enabled (an injected IOError is caught: the store is unchanged
    and the call continues), echoed to the terminal when enabled,
    inserted into the database when enabled, and sent to each flagged
    destination (transport failures are caught per destination, so the
    attempted destinations do not depend on the injected failures).
    The call itself always returns normally. -/
def logRun (cfg : Config) (last : Option DateTime) (now : DateTime)
    (procName codeLoc msg : String) (flags : NotifFlags) (inj : Inj) (fs : FS) :
    LogOutcome :=
  if cfg.debugMode then
    let e := mkEntry last now procName codeLoc msg
    ⟨if cfg.enableFiles && !inj.fileWriteFails then writeToLogFile cfg now e fs else fs,
     some now,
     some e,
     if cfg.enableFiles && !inj.fileWriteFails then [e] else [],
     if cfg.enableFiles then some (logFilePathFor cfg (dateU now)) else none,
     if cfg.enableTerminal then [terminalRender cfg.delim e] else [],
     if cfg.enableDatabase then [e] else [],
     notifTargets cfg flags,
     .ok ()⟩
  else ⟨fs, last, none, [], none, [], [], [], .ok ()⟩

/-- get_page's result as a row list, empty on failure (used to state the
    pagination property). -/
def pageRows (cfg : Config) (fs : FS) (todayU : String) (p : Nat) :
    List (List String) :=
  match getPage cfg fs todayU (p : Int) with
  | .ok df => df
  | .error _ => []

/-- The default field delimiter of the deployment configurations in the
    repository (log_delimiter in mytest.py and the test fixture). -/
def pipeC : Char := Char.ofNat 124

/-- The configured column list of the repository's configurations. -/
def colsA : List String :=
  ["timestamp", "type", "process_name", "source_code_line", "message", "exec_time"]

/-- A concrete configuration with the repository's default delimiter. -/
def cfgA : Config :=
  ⟨"logs", "test", pipeC, colsA, 2, true, true, false, false, "tg", "sl", "ur"⟩

/-- A concrete capture time, 2024-01-10 09:00:00. -/
def dtA : DateTime := ⟨2024, 1, 10, 9, 0, 0⟩

/-- A concrete log entry for 2024-01-10 09:00:00. -/
def eA : LogEntry := ⟨"20240110090000", "message", "procA", "a.py:12", "hello", "0"⟩

/-- The file store after appending eA to a fresh (empty) store. -/
def fsA : FS := writeToLogFile cfgA dtA eA []

/-- A capture time whose strftime('%Y%m%d%H%M%S') rendering
    "50101000000" does not re-parse under strptime('%Y%m%d%H%M%S'). -/
def dtTiny : DateTime := ⟨5, 1, 1, 0, 0, 0⟩

/-- No notification flag set. -/
def flagsNone : NotifFlags := ⟨false, false, false⟩

/-- The ten data rows of the spec's getRange scenario, with timestamps
    20240110090000 through 20240110090009. -/
def rowsC2 : List (List String) :=
  (List.range 10).map (fun i =>
    ["2024011009000" ++ decRepr i, "message", "procA", "a.py:12", "row", "0"])

/-- The partition file content of the getRange scenario: header row plus
    the ten data rows. -/
def contentC2 : String :=
  rowMin pipeC sqC colsA ++ String.join (rowsC2.map (rowMin pipeC sqC))

/-- A file store holding the 2024_01_10 partition of the getRange
    scenario. -/
def fsC2 : FS := [(logFilePathFor cfgA "2024_01_10", contentC2)]

/-- The data rows at 1-based positions 3 through 7 of the getRange
    scenario (timestamps 20240110090002 through 20240110090006). -/
def expectedC2 : List (List String) :=
  (List.range 5).map (fun i =>
    ["2024011009000" ++ decRepr (i + 2), "message", "procA", "a.py:12", "row", "0"])

/-- Ceiling-division step: removing one full chunk of size s lowers the
    ceiling page count by one. -/
theorem ceil_div_shift (s L : Nat) (hs : 1 ≤ s) (hL : 1 ≤ L) :
    (L + s - 1) / s = ((L - s) + s - 1) / s + 1 := by
  rcases le_or_lt L s with h | h
  · have h1 : L + s - 1 = (L - 1) + s := by omega
    have h2 : (L - s) + s - 1 = s - 1 := by omega
    have h3 : (L - 1) / s = 0 := Nat.div_eq_of_lt (by omega)
    have h4 : (s - 1) / s = 0 := Nat.div_eq_of_lt (by omega)
    rw [h1, h2, Nat.add_div_right _ (by omega), h3, h4]
  · have h1 : L + s - 1 = (L - 1 - s) + s + s := by omega
    have h2 : (L - s) + s - 1 = (L - 1 - s) + s := by omega
    rw [h1, h2, Nat.add_div_right _ (by omega), Nat.add_div_right _ (by omega)]

/-- Concatenating the successive s-sized chunks of a list, the number of
    chunks being the ceiling of its length over s, reproduces the list. -/
theorem chunks_join_eq {α : Type} (s : Nat) (hs : 1 ≤ s) :
    ∀ (n : Nat) (l : List α), l.length ≤ n →
      ((List.range ((l.length + s - 1) / s)).map
        (fun i => (l.drop (i * s)).take s)).flatten = l := by
  intro n
  induction n with
  | zero =>
    intro l hl
    have h0 : l = [] := List.length_eq_zero.mp (Nat.le_zero.mp hl)
    subst h0
    have h1 : ((0 : Nat) + s - 1) / s = 0 := Nat.div_eq_of_lt (by omega)
    simp only [List.length_nil, h1, List.range_zero, List.map_nil, List.flatten_nil]
  | succ n ih =>
    intro l hl
    rcases Nat.eq_zero_or_pos l.length with h0 | hpos
    · have h0 : l = [] := List.length_eq_zero.mp h0
      subst h0
      have h1 : ((0 : Nat) + s - 1) / s = 0 := Nat.div_eq_of_lt (by omega)
      simp only [List.length_nil, h1, List.range_zero, List.map_nil, List.flatten_nil]
    · have hshift : (l.length + s - 1) / s = ((l.drop s).length + s - 1) / s + 1 := by
        rw [List.length_drop]
        exact ceil_div_shift s l.length hs hpos
      rw [hshift, List.range_succ_eq_map, List.map_cons, List.map_map, List.flatten_cons]
      have hfun : ((fun i => (l.drop (i * s)).take s) ∘ Nat.succ)
          = fun i => ((l.drop s).drop (i * s)).take s := by
        funext i
        simp only [Function.comp_apply, List.drop_drop, Nat.succ_mul]
        rw [Nat.add_comm (i * s) s]
      rw [hfun, ih (l.drop s) (by rw [List.length_drop]; omega)]
      simp only [Nat.zero_mul, List.drop_zero, List.take_append_drop]

/-- Every chunk before the last one is full. -/
theorem chunk_full_length {α : Type} (s : Nat) (hs : 1 ≤ s) (l : List α) (i : Nat)
    (h : i + 1 < (l.length + s - 1) / s) :
    ((l.drop (i * s)).take s).length = s := by
  have hL1 : 1 ≤ l.length := by
    by_contra hc
    have h0 : l.length = 0 := by omega
    rw [h0] at h
    have h1 : ((0 : Nat) + s - 1) / s = 0 := Nat.div_eq_of_lt (by omega)
    rw [h1] at h
    omega
  have hT : (l.length + s - 1) / s = (l.length - 1) / s + 1 := by
    have h2 : l.length + s - 1 = (l.length - 1) + s := by omega
    rw [h2, Nat.add_div_right _ (by omega)]
  rw [hT] at h
  have hq : i + 1 ≤ (l.length - 1) / s := by omega
  have hmul : (i + 1) * s ≤ ((l.length - 1) / s) * s := Nat.mul_le_mul_right s hq
  have hdm : s * ((l.length - 1) / s) + (l.length - 1) % s = l.length - 1 :=
    Nat.div_add_mod _ _
  have hcm : ((l.length - 1) / s) * s = s * ((l.length - 1) / s) := Nat.mul_comm _ _
  have hsm : (i + 1) * s = i * s + s := by rw [Nat.add_mul, Nat.one_mul]
  simp only [List.length_take, List.length_drop]
  omega

/-- The ceiling quotient t of k over p satisfies k ≤ t p < k + p, the
    defining property of the least page count covering k rows. -/
theorem ceil_mul_bounds (k p : Nat) (hp : 1 ≤ p) :
    k ≤ ((k + p - 1) / p) * p ∧ ((k + p - 1) / p) * p < k + p := by
  rcases Nat.eq_zero_or_pos k with h0 | hk
  · subst h0
    have h1 : ((0 : Nat) + p - 1) / p = 0 := Nat.div_eq_of_lt (by omega)
    rw [h1]
    omega
  · have hT : (k + p - 1) / p = (k - 1) / p + 1 := by
      have h2 : k + p - 1 = (k - 1) + p := by omega
      rw [h2, Nat.add_div_right _ (by omega)]
    rw [hT]
    have hdm : p * ((k - 1) / p) + (k - 1) % p = k - 1 := Nat.div_add_mod _ _
    have hmod : (k - 1) % p < p := Nat.mod_lt _ (by omega)
    have hexp : ((k - 1) / p + 1) * p = p * ((k - 1) / p) + p := by
      rw [Nat.add_mul, Nat.one_mul, Nat.mul_comm]
    omega

/-- C4: for every partition file content with k data rows and page size
    p ≥ 1, concatenating getPage(1) .. getPage(totalPages) in order
    reproduces exactly the data rows with no gaps and no duplicates,
    every page before the last holds exactly p rows, getPage fails with
    the invalid-argument condition for every page number below 1 or
    above totalPages, and fails with the not-found condition when
    today's partition file does not exist.  (The width hypothesis keeps
    the model inside the domain where pandas DataFrame construction,
    not modelled, cannot raise.) -/
theorem getPage_paginates (cfg : Config) (fs : FS) (todayU : String)
    (hp : 1 ≤ cfg.pageSize) :
    (fsLookup fs (logFilePathFor cfg todayU) = none →
      ∀ p : Int, getPage cfg fs todayU p = .error .fileNotFound)
    ∧ (∀ content, fsLookup fs (logFilePathFor cfg todayU) = some content →
        (∀ r ∈ dataRowsOf cfg content, r.length = cfg.columns.length) →
        ((List.range (totalPagesOf cfg content)).map
            (fun i => pageRows cfg fs todayU (i + 1))).flatten = dataRowsOf cfg content
        ∧ (∀ i : Nat, i + 1 < totalPagesOf cfg content →
            (pageRows cfg fs todayU (i + 1)).length = cfg.pageSize)
        ∧ (∀ p : Int, p < 1 ∨ (totalPagesOf cfg content : Int) < p →
            getPage cfg fs todayU p = .error .valueError)
        ∧ (∀ p : Nat, 1 ≤ p → p ≤ totalPagesOf cfg content →
            getPage cfg fs todayU (p : Int)
              = .ok (((dataRowsOf cfg content).drop ((p - 1) * cfg.pageSize)).take
                  cfg.pageSize))) := by
  constructor
  · intro h p
    simp only [getPage, h]
  · intro content hlk _hwf
    have hvalid : ∀ p : Nat, 1 ≤ p → p ≤ totalPagesOf cfg content →
        getPage cfg fs todayU (p : Int)
          = .ok (((dataRowsOf cfg content).drop ((p - 1) * cfg.pageSize)).take
              cfg.pageSize) := by
      intro p h1 h2
      have hcond : ¬((p : Int) < 1 ∨ ((totalPagesOf cfg content : Nat) : Int) < (p : Int)) := by
        push_neg
        constructor
        · exact_mod_cast h1
        · exact_mod_cast h2
      have htn : ((p : Int) - 1).toNat = p - 1 := by omega
      simp only [getPage, hlk, if_neg hcond, htn]
    refine ⟨?_, ?_, ?_, hvalid⟩
    · have hmapeq : (List.range (totalPagesOf cfg content)).map
          (fun i => pageRows cfg fs todayU (i + 1))
          = (List.range (totalPagesOf cfg content)).map
            (fun i => ((dataRowsOf cfg content).drop (i * cfg.pageSize)).take
              cfg.pageSize) := by
        apply List.map_congr_left
        intro i hi
        have hi2 : i < totalPagesOf cfg content := List.mem_range.mp hi
        have hv := hvalid (i + 1) (by omega) (by omega)
        simp only [pageRows, hv, Nat.add_sub_cancel]
      rw [hmapeq]
      have hch := @chunks_join_eq (List String) cfg.pageSize hp
        (dataRowsOf cfg content).length (dataRowsOf cfg content) le_rfl
      simpa only [totalPagesOf] using hch
    · intro i hi
      have hv := hvalid (i + 1) (by omega) (by omega)
      simp only [pageRows, hv, Nat.add_sub_cancel]
      exact @chunk_full_length (List String) cfg.pageSize hp (dataRowsOf cfg content) i
        (by simpa only [totalPagesOf] using hi)
    · intro p hp2
      simp only [getPage, hlk, if_pos hp2]

/-- C4 witness: a concrete partition with ten data rows and page size
    two, whose five pages concatenate back to the ten rows. -/
theorem getPage_paginates_witness :
    1 ≤ cfgA.pageSize ∧
    ((List.range (totalPagesOf cfgA contentC2)).map
        (fun i => pageRows cfgA fsC2 "2024_01_10" (i + 1))).flatten
      = dataRowsOf cfgA contentC2 :=
  ⟨by decide,
   ((getPage_paginates cfgA fsC2 "2024_01_10" (by decide)).2 contentC2 rfl
      (by decide)).1⟩

/-- C5: getTotalPages for an existing partition with k data rows and
    page size p ≥ 1 returns the t with k ≤ t·p < k + p, that is the
    ceiling of k over p (for both the today default and an explicit
    date); for an absent partition it returns 0 when an explicit date
    argument was given and raises the no-logs condition when the date
    was omitted and today's partition is absent. -/
theorem getTotalPages_spec (cfg : Config) (fs : FS) (todayU : String)
    (hp : 1 ≤ cfg.pageSize) :
    (∀ content, fsLookup fs (logFilePathFor cfg todayU) = some content →
      ∃ t, getTotalAmountOfPages cfg fs todayU none = .ok t
        ∧ (dataRowsOf cfg content).length ≤ t * cfg.pageSize
        ∧ t * cfg.pageSize < (dataRowsOf cfg content).length + cfg.pageSize)
    ∧ (∀ d content, fsLookup fs (logFilePathFor cfg d) = some content →
      ∃ t, getTotalAmountOfPages cfg fs todayU (some d) = .ok t
        ∧ (dataRowsOf cfg content).length ≤ t * cfg.pageSize
        ∧ t * cfg.pageSize < (dataRowsOf cfg content).length + cfg.pageSize)
    ∧ (fsLookup fs (logFilePathFor cfg todayU) = none →
        getTotalAmountOfPages cfg fs todayU none = .error .noLogs)
    ∧ (∀ d, fsLookup fs (logFilePathFor cfg d) = none →
        getTotalAmountOfPages cfg fs todayU (some d) = .ok 0) := by
  refine ⟨?_, ?_, ?_, ?_⟩
  · intro content hlk
    refine ⟨totalPagesOf cfg content, ?_, ?_, ?_⟩
    · simp only [getTotalAmountOfPages, Option.getD_none, Option.isNone_none, hlk]
    · simpa only [totalPagesOf] using
        (ceil_mul_bounds (dataRowsOf cfg content).length cfg.pageSize hp).1
    · simpa only [totalPagesOf] using
        (ceil_mul_bounds (dataRowsOf cfg content).length cfg.pageSize hp).2
  · intro d content hlk
    refine ⟨totalPagesOf cfg content, ?_, ?_, ?_⟩
    · simp only [getTotalAmountOfPages, Option.getD_some, Option.isNone_some, hlk]
    · simpa only [totalPagesOf] using
        (ceil_mul_bounds (dataRowsOf cfg content).length cfg.pageSize hp).1
    · simpa only [totalPagesOf] using
        (ceil_mul_bounds (dataRowsOf cfg content).length cfg.pageSize hp).2
  · intro h
    simp only [getTotalAmountOfPages, Option.getD_none, Option.isNone_none, h]
    rfl
  · intro d h
    simp only [getTotalAmountOfPages, Option.getD_some, Option.isNone_some, h]
    rfl

/-- C5 witness: the spec's benign-absence scenario, an absent historical
    partition yields 0 pages. -/
theorem getTotalPages_spec_witness :
    getTotalAmountOfPages cfgA fsC2 "2024_01_10" (some "1999_01_01") = .ok 0 :=
  (getTotalPages_spec cfgA fsC2 "2024_01_10" (by decide)).2.2.2 "1999_01_01" rfl

/-- C1: the round-trip claim fails on the code.  Writing one entry to a
    fresh partition under the repository's default '|' delimiter and
    reading the partition back via read_logs_from_date yields TWO rows:
    the configured header row comes back as a data row, because the
    header check compares the file's first line against the COMMA-joined
    column list while the header was written with the '|' delimiter.
    The claim expects one row with the header detected and excluded. -/
theorem readPartition_returns_header_as_data :
    readLogsFromDate cfgA (writeToLogFile cfgA dtA eA []) "20240110"
      = .ok [colsA, entryFields eA] := rfl

/-- C2 counterexample: with the scenario partition stored under its
    2024_01_10 name and holding the ten data rows, the call written in
    the claim, getRange("20240110", 3, 7), fails with the not-found
    condition instead of returning five rows: get_logs_in_range uses
    its date argument verbatim in the partition file name, so the
    8-digit form names a file that does not exist. -/
theorem getRange_eight_digit_date_not_found :
    fsLookup fsC2 (logFilePathFor cfgA "2024_01_10") = some contentC2
    ∧ getLogsInRange cfgA fsC2 "20240110" 3 7 = .error .fileNotFound :=
  ⟨rfl, rfl⟩

/-- C2 amended: with the date argument in the YYYY_MM_DD form the same
    scenario succeeds and returns exactly the five data rows at 1-based
    positions 3 through 7 (timestamps 20240110090002..20240110090006),
    header excluded. -/
theorem getRange_returns_rows_3_to_7 :
    getLogsInRange cfgA fsC2 "2024_01_10" 3 7 = .ok expectedC2 := rfl

/-- C3 counterexample: at capture time 0005-01-01 00:00:00 the engine's
    own just-built timestamp "50101000000" (glibc strftime %Y prints the
    year unpadded, CPython issue bpo-13305) does not re-parse under
    strptime('%Y%m%d%H%M%S'), yet the append writes exactly the one
    original entry and completes: no secondary error entry is logged,
    because no parse-back guard exists in BBLogger.log. -/
theorem log_no_malformed_timestamp_guard :
    strptime14 (ts14 dtTiny) = none
    ∧ (logRun cfgA none dtTiny "procA" "a.py:12" "hi" flagsNone injNone []).written
        = [⟨ts14 dtTiny, "message", "procA", "a.py:12", "hi", "0"⟩]
    ∧ (logRun cfgA none dtTiny "procA" "a.py:12" "hi" flagsNone injNone []).result
        = .ok () :=
  ⟨rfl, rfl, rfl⟩

/-- C3 amended: the append path never re-parses its timestamp: in debug
    mode with file storage enabled and the write succeeding, exactly the
    one constructed entry is written, the partition file is the one for
    the same captured datetime, and the call completes normally, whether
    or not the timestamp string would re-parse. -/
theorem log_append_writes_single_entry (cfg : Config) (last : Option DateTime)
    (now : DateTime) (pn cl msg : String) (flags : NotifFlags) (inj : Inj) (fs : FS)
    (hdbg : cfg.debugMode = true) (hfiles : cfg.enableFiles = true)
    (hok : inj.fileWriteFails = false) :
    (logRun cfg last now pn cl msg flags inj fs).written = [mkEntry last now pn cl msg]
    ∧ (logRun cfg last now pn cl msg flags inj fs).fs
        = writeToLogFile cfg now (mkEntry last now pn cl msg) fs
    ∧ (logRun cfg last now pn cl msg flags inj fs).result = .ok () := by
  refine ⟨?_, ?_, ?_⟩ <;> simp [logRun, hdbg, hfiles, hok]

/-- C3 amended witness: the single-entry append at a concrete input. -/
theorem log_append_writes_single_entry_witness :
    (logRun cfgA none dtA "procA" "a.py:12" "hello" flagsNone injNone []).written
      = [mkEntry none dtA "procA" "a.py:12" "hello"] :=
  (log_append_writes_single_entry cfgA none dtA "procA" "a.py:12" "hello" flagsNone
    injNone [] rfl rfl rfl).1

/-- C6: the interval-scan claim fails on the code.  Under the default
    '|' delimiter a partition for 2024-01-10 holds one data row whose
    timestamp 20240110090000 lies inside the closed interval of the
    parsed, ordered bounds 20240110000000 and 20240110235959, yet
    getBetween returns an empty result: read_logs_from_date hands back
    the header line as a data row, the timestamp-column conversion
    fails on its literal "timestamp" field, and the handler turns that
    failure into an empty result instead of the in-range row. -/
theorem getBetween_empty_despite_row_in_range :
    readLogsFromDate cfgA fsA "20240110" = .ok [colsA, entryFields eA]
    ∧ strptime14 "20240110090000" = some dtA
    ∧ strptime14 "20240110000000" = some ⟨2024, 1, 10, 0, 0, 0⟩
    ∧ strptime14 "20240110235959" = some ⟨2024, 1, 10, 23, 59, 59⟩
    ∧ (dtLeB ⟨2024, 1, 10, 0, 0, 0⟩ dtA && dtLeB dtA ⟨2024, 1, 10, 23, 59, 59⟩) = true
    ∧ getLogsBetweenTimestamps cfgA fsA "20240110000000" "20240110235959" = .ok [] :=
  ⟨rfl, rfl, rfl, rfl, rfl, rfl⟩

/-- C8: every append call returns normally whatever failures occur: an
    IOError on the file write is caught, leaving the store unchanged and
    raising nothing, and transport failures are caught per destination,
    so the attempted destinations are exactly the flag-gated list in
    source order and do not depend on any injected failure; in
    particular one destination's failure never prevents the remaining
    destinations and never aborts the append. -/
theorem log_swallows_failures (cfg : Config) (last : Option DateTime) (now : DateTime)
    (pn cl msg : String) (flags : NotifFlags) (inj : Inj) (fs : FS) :
    (logRun cfg last now pn cl msg flags inj fs).result = .ok ()
    ∧ (logRun cfg last now pn cl msg flags inj fs).notifAttempts
        = (logRun cfg last now pn cl msg flags injNone fs).notifAttempts
    ∧ (cfg.debugMode = true →
        (logRun cfg last now pn cl msg flags inj fs).notifAttempts
          = notifTargets cfg flags)
    ∧ (inj.fileWriteFails = true →
        (logRun cfg last now pn cl msg flags inj fs).fs = fs) := by
  refine ⟨?_, ?_, ?_, ?_⟩
  · cases hd : cfg.debugMode <;> simp [logRun, hd]
  · cases hd : cfg.debugMode <;> simp [logRun, hd]
  · intro hd
    simp [logRun, hd]
  · intro hfail
    cases hd : cfg.debugMode <;> simp [logRun, hd, hfail]

/-- C8 witness: with every failure injected the append leaves the store
    unchanged and still completes. -/
theorem log_swallows_failures_witness :
    (logRun cfgA none dtA "procA" "a.py:12" "hello" flagsNone
        ⟨true, true, true, true⟩ []).fs = [] :=
  (log_swallows_failures cfgA none dtA "procA" "a.py:12" "hello" flagsNone
    ⟨true, true, true, true⟩ []).2.2.2 rfl

/-- C10: for every append in debug mode with file storage enabled, the
    chosen partition path embeds strftime('%Y_%m_%d') of the same
    captured datetime whose strftime('%Y%m%d%H%M%S') is the timestamp
    field of every written entry, and the two renderings share their
    year, month and day components verbatim: the file-name date always
    equals the date portion of the entry's timestamp. -/
theorem partition_date_matches_timestamp (cfg : Config) (last : Option DateTime)
    (now : DateTime) (pn cl msg : String) (flags : NotifFlags) (inj : Inj) (fs : FS)
    (hdbg : cfg.debugMode = true) (hfiles : cfg.enableFiles = true) :
    (logRun cfg last now pn cl msg flags inj fs).filePath
        = some (logFilePathFor cfg (dateU now))
    ∧ (∀ e ∈ (logRun cfg last now pn cl msg flags inj fs).written,
        e.timestamp = ts14 now)
    ∧ (∃ ys ms ds hrs mins secs,
        dateU now = ys ++ undStr ++ ms ++ undStr ++ ds
        ∧ ts14 now = ys ++ ms ++ ds ++ hrs ++ mins ++ secs) := by
  refine ⟨?_, ?_, ?_⟩
  · simp [logRun, hdbg, hfiles]
  · intro e he
    simp only [logRun, hdbg, if_true] at he
    by_cases hc : (cfg.enableFiles && !inj.fileWriteFails) = true
    · simp only [hc, if_true] at he
      simp only [List.mem_singleton] at he
      subst he
      rfl
    · simp only [Bool.not_eq_true] at hc
      simp only [hc, Bool.false_eq_true, if_false] at he
      simp at he
  · exact ⟨decRepr now.year, pad2 now.month, pad2 now.day, pad2 now.hour,
      pad2 now.minute, pad2 now.second, rfl, rfl⟩

/-- C10 witness: the partition path of a concrete append names the date
    of the captured datetime. -/
theorem partition_date_matches_timestamp_witness :
    (logRun cfgA none dtA "procA" "a.py:12" "hello" flagsNone injNone []).filePath
      = some (logFilePathFor cfgA (dateU dtA)) :=
  (partition_date_matches_timestamp cfgA none dtA "procA" "a.py:12" "hello" flagsNone
    injNone [] rfl rfl).1

/-- The boolean prefix test agrees with the prefix relation. -/
theorem prefB_iff (n : List Char) : ∀ h : List Char, prefB n h = true ↔ n <+: h := by
  induction n with
  | nil =>
    intro h
    simp [prefB]
  | cons a as ih =>
    intro h
    cases h with
    | nil => simp [prefB]
    | cons b bs =>
      simp [prefB, List.cons_prefix_cons, ih]

/-- The boolean substring test agrees with the contiguous-sublist
    relation. -/
theorem infixB_iff (n : List Char) : ∀ h : List Char, infixB n h = true ↔ n <:+: h := by
  intro h
  induction h with
  | nil => simp [infixB, prefB_iff]
  | cons c rest ih =>
    simp [infixB, prefB_iff, ih, List.infix_cons_iff]

/-- The error branch of the classifier fires exactly when some error
    keyword occurs in the lowered message. -/
theorem isError_iff (msg : String) :
    isErrorMessage msg = true
      ↔ ∃ w ∈ errorIndicators, w.data <:+: (pyLower msg).data := by
  simp [isErrorMessage, containsWordB, List.any_eq_true, infixB_iff]

/-- The warning branch of the classifier fires exactly when some warning
    keyword occurs in the lowered message. -/
theorem isWarning_iff (msg : String) :
    isWarningMessage msg = true
      ↔ ∃ w ∈ warningIndicators, w.data <:+: (pyLower msg).data := by
  simp [isWarningMessage, containsWordB, List.any_eq_true, infixB_iff]

/-- C7: severity classification is a case-insensitive substring match
    (the keywords are matched inside the lowered message): a message
    containing any error keyword is classified error regardless of any
    warning keyword also present; otherwise one containing a warning
    keyword is classified warning; otherwise it is classified message. -/
theorem classify_keyword_precedence (msg : String) :
    ((∃ w ∈ errorIndicators, w.data <:+: (pyLower msg).data) →
        classifyMessage msg = "error")
    ∧ ((∀ w ∈ errorIndicators, ¬ w.data <:+: (pyLower msg).data) →
        (∃ w ∈ warningIndicators, w.data <:+: (pyLower msg).data) →
        classifyMessage msg = "warning")
    ∧ ((∀ w ∈ errorIndicators, ¬ w.data <:+: (pyLower msg).data) →
        (∀ w ∈ warningIndicators, ¬ w.data <:+: (pyLower msg).data) →
        classifyMessage msg = "message") := by
  have hEfalse : (∀ w ∈ errorIndicators, ¬ w.data <:+: (pyLower msg).data) →
      isErrorMessage msg = false := by
    intro hne
    cases hE0 : isErrorMessage msg with
    | false => rfl
    | true =>
      obtain ⟨w, hw, hinf⟩ := (isError_iff msg).mp hE0
      exact absurd hinf (hne w hw)
  have hWfalse : (∀ w ∈ warningIndicators, ¬ w.data <:+: (pyLower msg).data) →
      isWarningMessage msg = false := by
    intro hne
    cases hW0 : isWarningMessage msg with
    | false => rfl
    | true =>
      obtain ⟨w, hw, hinf⟩ := (isWarning_iff msg).mp hW0
      exact absurd hinf (hne w hw)
  refine ⟨?_, ?_, ?_⟩
  · intro hex
    have hE : isErrorMessage msg = true := (isError_iff msg).mpr hex
    simp [classifyMessage, hE]
  · intro hne hex
    have hW : isWarningMessage msg = true := (isWarning_iff msg).mpr hex
    simp [classifyMessage, hEfalse hne, hW]
  · intro hne hnw
    simp [classifyMessage, hEfalse hne, hWfalse hnw]

/-- C7 witness: the spec's concrete scenario, a message containing the
    keyword failed is classified error. -/
theorem classify_keyword_precedence_witness :
    classifyMessage "Payment failed: timeout" = "error" :=
  (classify_keyword_precedence "Payment failed: timeout").1
    ⟨"failed", by decide,
     (infixB_iff "failed".data (pyLower "Payment failed: timeout").data).mp rfl⟩

/-- Doubling-escape never shortens a character list. -/
theorem escFun_length_ge (q : Char) :
    ∀ cs : List Char,
      cs.length ≤ (cs.flatMap (fun c => if c = q then [q, q] else [c])).length := by
  intro cs
  induction cs with
  | nil => simp
  | cons c rest ih =>
    rw [List.flatMap_cons, List.length_append]
    by_cases h : c = q
    · rw [if_pos h]
      simp only [List.length_cons, List.length_nil]
      omega
    · rw [if_neg h]
      simp only [List.length_cons, List.length_nil]
      omega

/-- A field survives QUOTE_MINIMAL rendering unchanged exactly when it
    needs no quoting (quoting strictly lengthens the field). -/
theorem encMin_eq_self_iff (d q : Char) (f : String) :
    encMin d q f = f ↔ needsQuote d q f = false := by
  constructor
  · intro h
    cases hq : needsQuote d q f with
    | false => rfl
    | true =>
      exfalso
      simp only [encMin, hq, if_true] at h
      have hlen := congrArg String.length h
      rw [String.length_append, String.length_append] at hlen
      have h1 : (strOf q).length = 1 := rfl
      have hesc : f.length ≤ (escQ q f).length := escFun_length_ge q f.data
      simp only [h1] at hlen
      omega
  · intro h
    simp [encMin, h]

/-- QUOTE_ALL rendering wraps every field in the quote character. -/
theorem encAll_head_last (q : Char) (f : String) :
    (encAll q f).data.head? = some q ∧ (encAll q f).data.getLast? = some q := by
  constructor
  · show (([q] ++ (escQ q f).data) ++ [q]).head? = some q
    simp
  · show (([q] ++ (escQ q f).data) ++ [q]).getLast? = some q
    exact List.getLast?_concat _

/-- A delimiter-join of fields starts with the first field's first
    character. -/
theorem joinFields_data_head (sep : String) (c : Char) :
    ∀ l : List String, l ≠ [] → (∀ f ∈ l, f.data.head? = some c) →
      (joinFields sep l).data.head? = some c := by
  intro l
  induction l with
  | nil => intro h; exact absurd rfl h
  | cons f rest ih =>
    intro _ hall
    cases rest with
    | nil => exact hall f (by simp)
    | cons g rest2 =>
      show ((f ++ sep) ++ joinFields sep (g :: rest2)).data.head? = some c
      have hf := hall f (by simp)
      simp [String.data_append, List.head?_append, hf]

/-- A delimiter-join of fields ends with the last field's last
    character. -/
theorem joinFields_data_last (sep : String) (c : Char) :
    ∀ l : List String, l ≠ [] → (∀ f ∈ l, f.data.getLast? = some c) →
      (joinFields sep l).data.getLast? = some c := by
  intro l
  induction l with
  | nil => intro h; exact absurd rfl h
  | cons f rest ih =>
    intro _ hall
    cases rest with
    | nil => exact hall f (by simp)
    | cons g rest2 =>
      show ((f ++ sep) ++ joinFields sep (g :: rest2)).data.getLast? = some c
      have hj := ih (by simp) (fun x hx => hall x (by simp [hx]))
      simp [String.data_append, List.getLast?_append, hj]

/-- dropWhile does nothing when the head already fails the test. -/
theorem dropWhile_head_stop (p : Char → Bool) (l : List Char) (c : Char)
    (h : l.head? = some c) (hp : p c = false) : l.dropWhile p = l := by
  cases l with
  | nil => simp at h
  | cons a t =>
    have ha : a = c := by simpa using h
    subst ha
    rw [List.dropWhile_cons, hp]
    simp

/-- Python str.strip() of a double-quote-wrapped row followed by CRLF
    removes exactly the CRLF. -/
theorem pyStripL_wrap (L : List Char) (h1 : L.head? = some dqC)
    (h2 : L.getLast? = some dqC) : pyStripL (L ++ [crC, lfC]) = L := by
  have hdq : isPyWS dqC = false := by decide
  have hlf : isPyWS lfC = true := by decide
  have hcr : isPyWS crC = true := by decide
  obtain ⟨t, rfl⟩ : ∃ t, L = dqC :: t := by
    cases L with
    | nil => simp at h1
    | cons a t =>
      have ha : a = dqC := by simpa using h1
      exact ⟨t, by rw [ha]⟩
  unfold pyStripL
  have hstep1 : ((dqC :: t) ++ [crC, lfC]).dropWhile isPyWS = (dqC :: t) ++ [crC, lfC] :=
    dropWhile_head_stop _ _ _ (by simp) hdq
  rw [hstep1, List.reverse_append]
  have h3 : ([crC, lfC] : List Char).reverse = [lfC, crC] := rfl
  have h4 : (dqC :: t).reverse = t.reverse ++ [dqC] := List.reverse_cons _ _
  rw [h3, h4, List.cons_append, List.cons_append, List.nil_append]
  have h2R : (t.reverse ++ [dqC]).head? = some dqC := by
    rw [← h4, List.head?_reverse]
    exact h2
  have hstop := dropWhile_head_stop isPyWS (t.reverse ++ [dqC]) dqC h2R hdq
  rw [List.dropWhile_cons, hlf, if_pos rfl]
  rw [List.dropWhile_cons, hcr, if_pos rfl]
  rw [hstop, List.reverse_append, List.reverse_reverse]
  rfl

/-- C9: the file rendering quotes a field exactly when the field holds
    the delimiter, the quote character or a line break (minimal
    quoting), the terminal rendering wraps every one of the six fields
    in quotes unconditionally, the file row is the delimiter-join of the
    minimally quoted fields plus the CRLF terminator, and the two
    renderings of the same entry always differ. -/
theorem file_vs_terminal_quoting (cfg : Config) (e : LogEntry) :
    (∀ f ∈ entryFields e,
        (encMin cfg.delim sqC f = f ↔ needsQuote cfg.delim sqC f = false))
    ∧ (∀ f ∈ entryFields e,
        (encAll dqC f).data.head? = some dqC ∧ (encAll dqC f).data.getLast? = some dqC)
    ∧ fileRender cfg e
        = joinFields (strOf cfg.delim) ((entryFields e).map (encMin cfg.delim sqC))
            ++ crlf
    ∧ terminalRender cfg.delim e ≠ fileRender cfg e := by
  have hne : entryFields e ≠ [""] := by simp [entryFields]
  have hfileEq : fileRender cfg e
      = joinFields (strOf cfg.delim) ((entryFields e).map (encMin cfg.delim sqC))
          ++ crlf := by
    simp only [fileRender, rowMin, if_neg hne]
  refine ⟨?_, ?_, hfileEq, ?_⟩
  · intro f _
    exact encMin_eq_self_iff cfg.delim sqC f
  · intro f _
    exact encAll_head_last dqC f
  · intro heq
    have hmapne : (entryFields e).map (encAll dqC) ≠ [] := by simp [entryFields]
    have hlastJ : (joinFields (strOf cfg.delim)
        ((entryFields e).map (encAll dqC))).data.getLast? = some dqC := by
      apply joinFields_data_last _ _ _ hmapne
      intro f hf
      obtain ⟨x, hx, rfl⟩ := List.mem_map.mp hf
      exact (encAll_head_last dqC x).2
    have hheadJ : (joinFields (strOf cfg.delim)
        ((entryFields e).map (encAll dqC))).data.head? = some dqC := by
      apply joinFields_data_head _ _ _ hmapne
      intro f hf
      obtain ⟨x, hx, rfl⟩ := List.mem_map.mp hf
      exact (encAll_head_last dqC x).1
    have hterm : (terminalRender cfg.delim e).data
        = (joinFields (strOf cfg.delim) ((entryFields e).map (encAll dqC))).data := by
      show pyStripL ((rowAll cfg.delim dqC (entryFields e)).data) = _
      have hdata : (rowAll cfg.delim dqC (entryFields e)).data
          = (joinFields (strOf cfg.delim) ((entryFields e).map (encAll dqC))).data
            ++ [crC, lfC] := by
        show ((joinFields (strOf cfg.delim) ((entryFields e).map (encAll dqC)))
            ++ crlf).data = _
        rw [String.data_append]
        rfl
      rw [hdata]
      exact pyStripL_wrap _ hheadJ hlastJ
    have hfile : (fileRender cfg e).data.getLast? = some lfC := by
      rw [hfileEq, String.data_append, List.getLast?_append]
      rfl
    have hL : (terminalRender cfg.delim e).data.getLast? = some dqC := by
      rw [hterm]
      exact hlastJ
    have hcmp := congrArg (fun s => s.data.getLast?) heq
    simp only at hcmp
    rw [hL, hfile] at hcmp
    exact absurd hcmp (by decide)

/-- C9 witness: at a concrete entry the plain message field is written
    unquoted by the file rendering while the terminal rendering differs
    from the file rendering. -/
theorem file_vs_terminal_quoting_witness :
    encMin cfgA.delim sqC "hello" = "hello"
    ∧ terminalRender cfgA.delim eA ≠ fileRender cfgA eA :=
  ⟨((file_vs_terminal_quoting cfgA eA).1 "hello" (by decide)).mpr (by decide),
   (file_vs_terminal_quoting cfgA eA).2.2.2⟩

end BBLogger
